import Mathlib

/-!
Verification of `src/data_preparation/dataset_builder.py` (class `DatasetBuilder`).

Shallow embedding conventions:
* External I/O (directory listings, file-existence checks, the EAF parsing
  library, the audio codec stack) is abstracted into oracle fields of an
  environment structure; the control flow, string manipulation and record
  construction of the Python source are translated directly.
* Python exceptions are modelled with `Except Err`; an uncaught exception is an
  `Except.error` value propagating through the explicit matches, exactly
  mirroring the absence of `try`/`except` in the source.
* The `None` return values of Python are modelled by the `PyVal` inductive so that
  the concrete shape of the returned value (bare `None` versus the tuple
  `(None, None)`) is observable.
* Character classes `[a-zA-Z]` and `\d` are modelled over ASCII
  (`Char.isAlpha` / `Char.isDigit`); the corpus filenames covered by the spec
  are ASCII.
-/

/-- Opaque model of a Python exception object. -/
abbrev Err := String

/-- A decoded audio sample array (Python: a list of floats; modelled over ℚ). -/
abbrev Samples := List ℚ

/-- Model of `os.path.join dir name` for relative, separator-free components. -/
def pathJoin (a b : String) : String := a ++ "/" ++ b

/-- Index of the last occurrence of a dot in a character list, if any. -/
def lastDot : List Char → Option Nat
  | [] => none
  | c :: rest =>
    match lastDot rest with
    | some i => some (i + 1)
    | none => if c = '.' then some 0 else none

/-- Model of `os.path.splitext(s)[0]` for a bare filename (no directory
separators): strip the extension at the last dot, unless every character
before that dot is itself a dot (the Python leading-dot rule). -/
def splitextRoot (s : String) : String :=
  match lastDot s.data with
  | none => s
  | some i =>
    if (s.data.take i).all (fun c => c = '.') then s else String.mk (s.data.take i)

/-- Python f-string interpolation of a value that may be `None`:
`f"{x}"` renders `None` as the string "None". -/
def pyFmt : Option String → String
  | none => "None"
  | some s => s

/-- The fragment of Python runtime values needed to state what
`build_dataset` returns: `None`, integers, and pairs. -/
inductive PyVal where
  | none : PyVal
  | nat : Nat → PyVal
  | tup : PyVal → PyVal → PyVal
deriving DecidableEq

/-- One entry of the in-memory dataset list: the dictionary literal appended
in the per-span loop of `build_dataset`. -/
structure Record where
  path : String
  transcription : String
  waveform : Option Samples
  sampling_rate : Nat
  duration : Int
  conversation_id : Option String
deriving DecidableEq

/-- The constructor parameters of `DatasetBuilder.__init__`. -/
structure Config where
  eaf_dir : String
  wav_dir : String
  seg_dir : String
  output_dir : String
  split : Bool
  test_size : ℚ
deriving DecidableEq

/-!  ### Identity Resolver (`_parse_root_id_and_session`)

The source matches `re.match(r"([a-zA-Z]+-\d+)-(\d)\.eaf", filename,
re.IGNORECASE)`. `re.match` anchors at the start of the string only; the
pattern carries no end anchor, so any suffix may follow. Greedy maximal-munch
scanning coincides with the regex semantics here because the letter and digit
classes are disjoint from the separator `-` and from `.`, so no backtracking
can succeed where the greedy scan fails. -/

/-- Scan for the regex groups at the start of `cs`: group 1 is
`[a-zA-Z]+-\d+`, then `-`, then the single-digit group 2, then `.eaf`
case-insensitively, then an arbitrary suffix. Returns (group1, group2). -/
def matchGroups (cs : List Char) : Option (List Char × Char) :=
  let L := cs.takeWhile Char.isAlpha
  let rest1 := cs.dropWhile Char.isAlpha
  if L.isEmpty then none else
  match rest1 with
  | '-' :: rest2 =>
    let D := rest2.takeWhile Char.isDigit
    let rest3 := rest2.dropWhile Char.isDigit
    if D.isEmpty then none else
    match rest3 with
    | '-' :: d :: '.' :: c1 :: c2 :: c3 :: _ =>
      if d.isDigit && (c1.toLower == 'e') && (c2.toLower == 'a') && (c3.toLower == 'f')
      then some (L ++ '-' :: D, d) else none
    | _ => none
  | _ => none

/-- Embedding of `DatasetBuilder._parse_root_id_and_session`: on a match,
group 1 upper-cased and group 2 verbatim; otherwise `(None, None)`. -/
def _parse_root_id_and_session (filename : String) : Option String × Option String :=
  match matchGroups filename.data with
  | some (g1, d) => (some (String.mk (g1.map Char.toUpper)), some (String.mk [d]))
  | none => (none, none)

/-- Modelled from the spec: the *anchored* resolver claimed by the spec,
matching the full filename against `^([A-Za-z]+-\d+)-(\d)\.eaf$`
case-insensitively (nothing may follow the extension). -/
def matchGroupsAnchored (cs : List Char) : Option (List Char × Char) :=
  let L := cs.takeWhile Char.isAlpha
  let rest1 := cs.dropWhile Char.isAlpha
  if L.isEmpty then none else
  match rest1 with
  | '-' :: rest2 =>
    let D := rest2.takeWhile Char.isDigit
    let rest3 := rest2.dropWhile Char.isDigit
    if D.isEmpty then none else
    match rest3 with
    | '-' :: d :: '.' :: c1 :: c2 :: c3 :: [] =>
      if d.isDigit && (c1.toLower == 'e') && (c2.toLower == 'a') && (c3.toLower == 'f')
      then some (L ++ '-' :: D, d) else none
    | _ => none
  | _ => none

/-- Modelled from the spec: `resolve` under the anchored pattern. -/
def anchoredResolve (s : String) : Option String × Option String :=
  match matchGroupsAnchored s.data with
  | some (g1, d) => (some (String.mk (g1.map Char.toUpper)), some (String.mk [d]))
  | none => (none, none)

/-- Specification-side characterization of a successful *prefix* match of the
pattern `([a-zA-Z]+-\d+)-(\d)\.eaf` (case-insensitive extension) together
with the values the resolver returns for it. -/
def PrefixMatch (s : String) (root sess : String) : Prop :=
  ∃ (L D : List Char) (d c1 c2 c3 : Char) (rest : List Char),
    s.data = L ++ '-' :: (D ++ '-' :: d :: '.' :: c1 :: c2 :: c3 :: rest) ∧
    L ≠ [] ∧ (∀ c ∈ L, c.isAlpha = true) ∧
    D ≠ [] ∧ (∀ c ∈ D, c.isDigit = true) ∧
    d.isDigit = true ∧
    c1.toLower = 'e' ∧ c2.toLower = 'a' ∧ c3.toLower = 'f' ∧
    root = String.mk ((L ++ '-' :: D).map Char.toUpper) ∧
    sess = String.mk [d]

/-!  ### Audio Slicer (`slice_and_process_audio`)

The codec stack (pydub decode/slice/export, librosa load/resample, soundfile
write) is abstracted into an oracle environment describing one completed
invocation; the control flow of the function itself — the zero-length validation that
deletes the exported file and returns `None`, the conditional resample, the
re-write at 16000 Hz, and the returned sample list — is translated directly. -/

/-- Oracles for one completed Audio Slicer invocation. -/
structure SliceEnv where
  /-- Result of `librosa.load(seg_path, sr=None)`: decoded samples of the exported slice. -/
  loadData : Samples
  /-- Result of `librosa.load(seg_path, sr=None)`: native sample rate of the exported slice. -/
  loadRate : Nat
  /-- Model of `librosa.resample(data, orig_sr, target_sr)`. -/
  resample : Samples → Nat → Nat → Samples

/-- The state of the file at `seg_path` when the invocation returns. -/
inductive SegFile where
  /-- No file remains (the exported slice was deleted by `os.remove`). -/
  | absent : SegFile
  /-- A wav file holding `data` at rate `rate` (written by `sf.write`). -/
  | writtenWav (data : Samples) (rate : Nat) : SegFile
deriving DecidableEq

/-- Embedding of `DatasetBuilder.slice_and_process_audio`: returns the value
handed back to the caller together with the final state of the file at
`seg_path`. -/
def slice_and_process_audio (env : SliceEnv) : Option Samples × SegFile :=
  let target_sampling_rate := 16000
  let audio_data := env.loadData
  let sampling_rate := env.loadRate
  if audio_data.length = 0 then
    (none, SegFile.absent)
  else
    let audio_data :=
      if sampling_rate ≠ target_sampling_rate
      then env.resample audio_data sampling_rate target_sampling_rate
      else audio_data
    (some audio_data, SegFile.writtenWav audio_data target_sampling_rate)

/-!  ### Train/test splitter (external)

`sklearn.model_selection.train_test_split` is a third-party routine the spec
treats as an external collaborator ("consumed as a pure function: partition a
list by ratio and seed"). -/

/-- A linear congruential step, standing in for the seeded PRNG. -/
def lcg (seed : Nat) : Nat := (1103515245 * seed + 12345) % 2 ^ 31

/-- The ceiling of `t * m` as a natural number, computed on the numerator and denominator
of `t` (for `t < 0` this is `0`, as is its natural-number ceiling). -/
def ceilMulNat (t : ℚ) (m : Nat) : Nat := (t.num.toNat * m + t.den - 1) / t.den

/-- Modelled from the spec: the external splitter `train_test_split`,
consumed as a pure function partitioning a list by ratio and seed.
Deterministic in `(data, test_size, random_state)`; the test partition has
`⌈test_size * |data|⌉` elements (the sklearn ceiling convention for a float
`test_size`); the shuffle is modelled as a seed-determined rotation of the
input. Returns `(train, test)`. -/
def train_test_split {α : Type} (data : List α) (test_size : ℚ) (random_state : Nat) :
    List α × List α :=
  let n_test := ceilMulNat test_size data.length
  let shuffled := data.rotate (lcg random_state % (data.length + 1))
  (shuffled.drop n_test, shuffled.take n_test)

/-!  ### Dataset Assembler (`build_dataset`) -/

/-- Oracles for one run of `build_dataset`: the directory listing of
`eaf_dir`, the `os.path.exists` predicate over full paths, the EAF parsing
library, and the Audio Slicer summarized by its outcome (an exception, or the
value returned to the caller — `None` or a sample list). -/
structure BuildEnv where
  /-- Listing `os.listdir(eaf_dir)`, in iteration order. -/
  eafFiles : List String
  /-- Model of `os.path.exists` on a full path. -/
  wavExists : String → Bool
  /-- Result of `parse_eaf_file` at a full eaf path: the `(start, end, text)` span list,
  or the `ParseError` it raises. -/
  parseEaf : String → Except Err (List (Int × Int × String))
  /-- Outcome of `slice_and_process_audio wav_path seg_path start end`: the returned
  waveform (possibly `None`), or the codec exception it raises. -/
  slice : String → String → Int → Int → Except Err (Option Samples)

/-- The inner per-span loop of `build_dataset`: for each `(start_time,
end_time, text)` span, compute `seg_path`, invoke the slicer, and append the
record dictionary; a slicer exception propagates (there is no `try`). -/
def processSpans (env : BuildEnv) (wav_path seg_folder : String)
    (root_id : Option String) : List (Int × Int × String) → Except Err (List Record)
  | [] => .ok []
  | (start_time, end_time, text) :: rest =>
    let seg_path := pathJoin seg_folder (toString start_time ++ "-" ++ toString end_time ++ ".wav")
    match env.slice wav_path seg_path start_time end_time with
    | .error e => .error e
    | .ok waveform =>
      match processSpans env wav_path seg_folder root_id rest with
      | .error e => .error e
      | .ok rs => .ok ({ path := seg_path, transcription := text, waveform := waveform,
                         sampling_rate := 16000, duration := end_time - start_time,
                         conversation_id := root_id } :: rs)

/-- One iteration of the per-file loop of `build_dataset`: resolve the identity,
form `{root_id}-{session}.wav` (Python renders `None` as "None"), and if that
file exists, parse the eaf file and run the per-span loop; otherwise warn and
contribute nothing. Parse exceptions propagate (there is no `try`). -/
def processFile (cfg : Config) (env : BuildEnv) (eaf_file : String) :
    Except Err (List Record) :=
  let ids := _parse_root_id_and_session eaf_file
  let wav_filename := pyFmt ids.1 ++ "-" ++ pyFmt ids.2 ++ ".wav"
  let wav_path := pathJoin cfg.wav_dir wav_filename
  if env.wavExists wav_path then
    match env.parseEaf (pathJoin cfg.eaf_dir eaf_file) with
    | .error e => .error e
    | .ok anns =>
      processSpans env wav_path (pathJoin cfg.seg_dir (splitextRoot eaf_file)) ids.1 anns
  else .ok []

/-- The whole per-file loop: records accumulate in listing order, file by
file, span by span; the first exception aborts the run. -/
def collectRecords (cfg : Config) (env : BuildEnv) : List String → Except Err (List Record)
  | [] => .ok []
  | f :: fs =>
    match processFile cfg env f with
    | .error e => .error e
    | .ok rs =>
      match collectRecords cfg env fs with
      | .error e => .error e
      | .ok rest => .ok (rs ++ rest)

/-- Observable outcome of a completed `build_dataset` run: the accumulated
record list, the Python value returned, and the `_write_json` calls performed
(path and serialized list, in call order). -/
structure BuildOut where
  records : List Record
  ret : PyVal
  writes : List (String × List Record)
deriving DecidableEq

/-- Embedding of `DatasetBuilder.build_dataset`: run the per-file loop; if no
records accumulated, return the tuple `(None, None)` and write nothing;
otherwise split with the fixed seed 42, write `train.json` then `test.json`
under `output_dir`, and fall off the end of the function (Python returns the
bare `None`). -/
def build_dataset (cfg : Config) (env : BuildEnv) : Except Err BuildOut :=
  match collectRecords cfg env env.eafFiles with
  | .error e => .error e
  | .ok data =>
    if data.length = 0 then
      .ok { records := data, ret := PyVal.tup PyVal.none PyVal.none, writes := [] }
    else
      let tt := train_test_split data cfg.test_size 42
      .ok { records := data, ret := PyVal.none,
            writes := [(pathJoin cfg.output_dir "train.json", tt.1),
                       (pathJoin cfg.output_dir "test.json", tt.2)] }

deriving instance DecidableEq for Except

/-!  ### Concrete fixtures used by witnesses and counterexamples -/

/-- A configuration with the default `test_size = 0.1` (`mkRat` keeps the
rational kernel-computable). -/
def cfg1 : Config :=
  { eaf_dir := "eaf", wav_dir := "wav", seg_dir := "seg",
    output_dir := "out", split := true, test_size := mkRat 1 10 }

/-- A corpus with one well-named annotation file, its recording, and two
spans (the end-to-end scenario of the spec, shortened names). -/
def env1 : BuildEnv :=
  { eafFiles := ["A-1-1.eaf"],
    wavExists := fun p => p == "wav/A-1-1.wav",
    parseEaf := fun _ => .ok [(0, 1000, "hi"), (1000, 2500, "wo")],
    slice := fun _ _ _ _ => .ok (some [1]) }

/-- The record produced by the first span of `env1`. -/
def r1 : Record :=
  { path := "seg/A-1-1/0-1000.wav", transcription := "hi", waveform := some [1],
    sampling_rate := 16000, duration := 1000, conversation_id := some "A-1" }

/-- The record produced by the second span of `env1`. -/
def r2 : Record :=
  { path := "seg/A-1-1/1000-2500.wav", transcription := "wo", waveform := some [1],
    sampling_rate := 16000, duration := 1500, conversation_id := some "A-1" }

/-- The outcome of `build_dataset cfg1 env1`. -/
def out1 : BuildOut :=
  { records := [r1, r2], ret := PyVal.none,
    writes := [("out/train.json", [r2]), ("out/test.json", [r1])] }

/-- An empty corpus: `eaf_dir` lists nothing. -/
def env0 : BuildEnv :=
  { eafFiles := [], wavExists := fun _ => false,
    parseEaf := fun _ => .ok [], slice := fun _ _ _ _ => .ok none }

/-- One annotation file whose name does not match the identity pattern, and
no recordings at all. -/
def env2 : BuildEnv :=
  { eafFiles := ["bad.eaf"], wavExists := fun _ => false,
    parseEaf := fun _ => .ok [], slice := fun _ _ _ _ => .ok none }

/-- One annotation file whose name does not match the identity pattern, while
`wav_dir` happens to contain a file literally named `None-None.wav`. -/
def env4 : BuildEnv :=
  { eafFiles := ["bad.eaf"],
    wavExists := fun p => p == "wav/None-None.wav",
    parseEaf := fun _ => .ok [(0, 5, "x")],
    slice := fun _ _ _ _ => .ok (some [1]) }

/-- The record produced by the single span of `env4`: note the null `conversation_id`. -/
def r4 : Record :=
  { path := "seg/bad/0-5.wav", transcription := "x", waveform := some [1],
    sampling_rate := 16000, duration := 5, conversation_id := none }

/-- A corpus whose single annotation file raises a `ParseError`. -/
def env8 : BuildEnv :=
  { eafFiles := ["A-1-1.eaf"],
    wavExists := fun p => p == "wav/A-1-1.wav",
    parseEaf := fun _ => .error "ParseError",
    slice := fun _ _ _ _ => .ok none }

/-- Slicer oracles for one invocation decoding two samples at 44100 Hz, with
an identity resampler. -/
def envS : SliceEnv :=
  { loadData := [1, 2], loadRate := 44100, resample := fun d _ _ => d }

/-- A corpus where the slice of the single span is zero-length (the slicer returns
`None`), so the waveform field of the record is null. -/
def env10 : BuildEnv :=
  { eafFiles := ["A-1-1.eaf"],
    wavExists := fun p => p == "wav/A-1-1.wav",
    parseEaf := fun _ => .ok [(0, 7, "z")],
    slice := fun _ _ _ _ => .ok none }

/-- The null-waveform record `env10` produces. -/
def r10 : Record :=
  { path := "seg/A-1-1/0-7.wav", transcription := "z", waveform := none,
    sampling_rate := 16000, duration := 7, conversation_id := some "A-1" }

/-- The outcome of `build_dataset cfg1 env10`. -/
def out10 : BuildOut :=
  { records := [r10], ret := PyVal.none,
    writes := [("out/train.json", []), ("out/test.json", [r10])] }

example : _parse_root_id_and_session "ABC-123-4.eaf" = (some "ABC-123", some "4") := by decide
example : _parse_root_id_and_session "abc-123-4.EAF" = (some "ABC-123", some "4") := by decide
example : _parse_root_id_and_session "not-a-match.eaf" = (none, none) := by decide
example : _parse_root_id_and_session "ABC-123-4.eafX" = (some "ABC-123", some "4") := by decide
example : anchoredResolve "ABC-123-4.eafX" = (none, none) := by decide
example : splitextRoot "A-1-1.eaf" = "A-1-1" := by decide
example : splitextRoot ".eaf" = ".eaf" := by decide
example : build_dataset cfg1 env1 = .ok out1 := by decide

/-!  ### Helper lemmas about the assembler -/

/-- If the processing of any listed file raises, the whole run raises. -/
theorem collect_error_of_mem (cfg : Config) (env : BuildEnv) (f : String) (e : Err)
    (files : List String) (hf : f ∈ files) (he : processFile cfg env f = .error e) :
    ∃ e2, collectRecords cfg env files = .error e2 := by
  induction files with
  | nil => cases hf
  | cons g gs ih =>
    cases hg : processFile cfg env g with
    | error e2 => exact ⟨e2, by simp [collectRecords, hg]⟩
    | ok rs =>
      rcases List.mem_cons.mp hf with rfl | hmem
      · rw [hg] at he; cases he
      · obtain ⟨e2, h2⟩ := ih hmem
        exact ⟨e2, by simp [collectRecords, hg, h2]⟩

/-- Unfolding `build_dataset` when the per-file loop completed. -/
theorem build_eq_of_collect (cfg : Config) (env : BuildEnv) (data : List Record)
    (h : collectRecords cfg env env.eafFiles = .ok data) :
    build_dataset cfg env =
      if data.length = 0 then
        .ok { records := data, ret := PyVal.tup PyVal.none PyVal.none, writes := [] }
      else
        .ok { records := data, ret := PyVal.none,
              writes := [(pathJoin cfg.output_dir "train.json",
                            (train_test_split data cfg.test_size 42).1),
                         (pathJoin cfg.output_dir "test.json",
                            (train_test_split data cfg.test_size 42).2)] } := by
  unfold build_dataset
  rw [h]

/-- Unfolding `build_dataset` when the per-file loop raised. -/
theorem build_error_of_collect (cfg : Config) (env : BuildEnv) (e : Err)
    (h : collectRecords cfg env env.eafFiles = .error e) :
    build_dataset cfg env = .error e := by
  unfold build_dataset
  rw [h]

/-- The record list of a completed run is the one the per-file loop accumulated. -/
theorem build_ok_records (cfg : Config) (env : BuildEnv) (out : BuildOut)
    (h : build_dataset cfg env = .ok out) :
    collectRecords cfg env env.eafFiles = .ok out.records := by
  cases hc : collectRecords cfg env env.eafFiles with
  | error e => rw [build_error_of_collect cfg env e hc] at h; cases h
  | ok data =>
    rw [build_eq_of_collect cfg env data hc] at h
    split at h <;> rw [← Except.ok.inj h]

/-- The two possible shapes of a completed run. -/
theorem build_ok_shape (cfg : Config) (env : BuildEnv) (out : BuildOut)
    (h : build_dataset cfg env = .ok out) :
    (out.records = [] ∧ out.ret = PyVal.tup PyVal.none PyVal.none ∧ out.writes = []) ∨
    (out.records ≠ [] ∧ out.ret = PyVal.none ∧
      out.writes = [(pathJoin cfg.output_dir "train.json",
                       (train_test_split out.records cfg.test_size 42).1),
                    (pathJoin cfg.output_dir "test.json",
                       (train_test_split out.records cfg.test_size 42).2)]) := by
  cases hc : collectRecords cfg env env.eafFiles with
  | error e => rw [build_error_of_collect cfg env e hc] at h; cases h
  | ok data =>
    rw [build_eq_of_collect cfg env data hc] at h
    split at h
    case isTrue hz =>
      rw [← Except.ok.inj h]
      exact Or.inl ⟨by simpa using List.length_eq_zero.mp hz, rfl, rfl⟩
    case isFalse hz =>
      rw [← Except.ok.inj h]
      refine Or.inr ⟨fun hnil => ?_, rfl, rfl⟩
      have hd : data = [] := hnil
      exact hz (by simp [hd])

/-- The function `processFile` reads only the three directory fields of the config. -/
theorem processFile_congr (cfg cfg' : Config) (env : BuildEnv) (f : String)
    (h1 : cfg.eaf_dir = cfg'.eaf_dir) (h2 : cfg.wav_dir = cfg'.wav_dir)
    (h3 : cfg.seg_dir = cfg'.seg_dir) :
    processFile cfg env f = processFile cfg' env f := by
  unfold processFile
  rw [h1, h2, h3]

/-- The per-file loop reads only the three directory fields of the config. -/
theorem collectRecords_congr (cfg cfg' : Config) (env : BuildEnv)
    (h1 : cfg.eaf_dir = cfg'.eaf_dir) (h2 : cfg.wav_dir = cfg'.wav_dir)
    (h3 : cfg.seg_dir = cfg'.seg_dir) (files : List String) :
    collectRecords cfg env files = collectRecords cfg' env files := by
  induction files with
  | nil => rfl
  | cons f fs ih =>
    simp only [collectRecords, processFile_congr cfg cfg' env f h1 h2 h3, ih]

/-- The function `build_dataset` reads every config field except `split`. -/
theorem build_dataset_congr (cfg cfg' : Config) (env : BuildEnv)
    (h1 : cfg.eaf_dir = cfg'.eaf_dir) (h2 : cfg.wav_dir = cfg'.wav_dir)
    (h3 : cfg.seg_dir = cfg'.seg_dir) (h4 : cfg.output_dir = cfg'.output_dir)
    (h5 : cfg.test_size = cfg'.test_size) :
    build_dataset cfg env = build_dataset cfg' env := by
  unfold build_dataset
  rw [collectRecords_congr cfg cfg' env h1 h2 h3, h4, h5]

/-- The per-span loop under an all-successful slicer: one record per span,
whatever each slicer outcome `wv a` is. -/
theorem processSpans_ok_map (env : BuildEnv) (wav_path seg_folder : String)
    (root_id : Option String) (anns : List (Int × Int × String))
    (wv : Int × Int × String → Option Samples)
    (hs : ∀ a ∈ anns, env.slice wav_path
        (pathJoin seg_folder (toString a.1 ++ "-" ++ toString a.2.1 ++ ".wav")) a.1 a.2.1
        = .ok (wv a)) :
    processSpans env wav_path seg_folder root_id anns =
      .ok (anns.map fun a =>
        { path := pathJoin seg_folder (toString a.1 ++ "-" ++ toString a.2.1 ++ ".wav"),
          transcription := a.2.2, waveform := wv a, sampling_rate := 16000,
          duration := a.2.1 - a.1, conversation_id := root_id }) := by
  induction anns with
  | nil => rfl
  | cons a rest ih =>
    obtain ⟨s, e, t⟩ := a
    have h1 := hs (s, e, t) (List.mem_cons_self _ _)
    have h2 := ih fun a ha => hs a (List.mem_cons_of_mem _ ha)
    simp [processSpans, h1, h2]

/-- Every record the per-span loop emits carries `sampling_rate = 16000`. -/
theorem processSpans_rate (env : BuildEnv) (wav_path seg_folder : String)
    (root_id : Option String) (anns : List (Int × Int × String)) (rs : List Record)
    (h : processSpans env wav_path seg_folder root_id anns = .ok rs) :
    ∀ r ∈ rs, r.sampling_rate = 16000 := by
  induction anns generalizing rs with
  | nil =>
    injection h with h2
    subst h2
    intro r hr
    cases hr
  | cons a rest ih =>
    obtain ⟨s, e, t⟩ := a
    simp only [processSpans] at h
    cases hsl : env.slice wav_path
        (pathJoin seg_folder (toString s ++ "-" ++ toString e ++ ".wav")) s e with
    | error e2 => rw [hsl] at h; cases h
    | ok w =>
      rw [hsl] at h
      cases hps : processSpans env wav_path seg_folder root_id rest with
      | error e2 => rw [hps] at h; cases h
      | ok rs2 =>
        rw [hps] at h
        injection h with h2
        subst h2
        intro r hr
        rcases List.mem_cons.mp hr with rfl | hmem
        · rfl
        · exact ih rs2 hps r hmem

/-- Every record the processing of one file emits carries `sampling_rate = 16000`. -/
theorem processFile_rate (cfg : Config) (env : BuildEnv) (f : String) (rs : List Record)
    (h : processFile cfg env f = .ok rs) :
    ∀ r ∈ rs, r.sampling_rate = 16000 := by
  simp only [processFile] at h
  split at h
  · split at h
    · cases h
    · exact processSpans_rate env _ _ _ _ rs h
  · injection h with h2
    subst h2
    intro r hr
    cases hr

/-- Every accumulated record carries `sampling_rate = 16000`. -/
theorem collectRecords_rate (cfg : Config) (env : BuildEnv) (files : List String)
    (rs : List Record) (h : collectRecords cfg env files = .ok rs) :
    ∀ r ∈ rs, r.sampling_rate = 16000 := by
  induction files generalizing rs with
  | nil =>
    injection h with h2
    subst h2
    intro r hr
    cases hr
  | cons f fs ih =>
    simp only [collectRecords] at h
    cases hpf : processFile cfg env f with
    | error e => rw [hpf] at h; cases h
    | ok rs1 =>
      rw [hpf] at h
      cases hcr : collectRecords cfg env fs with
      | error e => rw [hcr] at h; cases h
      | ok rs2 =>
        rw [hcr] at h
        injection h with h2
        subst h2
        intro r hr
        rcases List.mem_append.mp hr with hmem | hmem
        · exact processFile_rate cfg env f rs1 hpf r hmem
        · exact ih rs2 hcr r hmem

/-!  ### Claim theorems (first batch) -/

/-- C1, counterexample: A run of `build_dataset` over a corpus that
accumulates two records completes with the bare Python `None` as its return
value — not the pair `(train_count, test_count)` (which here would have been
the tuple `(1, 1)`). -/
theorem build_returns_no_counts_counterexample :
    build_dataset cfg1 env1 = .ok out1 ∧ out1.records.length = 2 ∧
    out1.ret = PyVal.none ∧ (out1.writes.map (fun w => w.2.length)) = [1, 1] ∧
    PyVal.none ≠ PyVal.tup (PyVal.nat 1) (PyVal.nat 1) := by decide

/-- C1, amended: When at least one record is accumulated, `build_dataset`
persists the train and test partitions and returns the bare `None` (it
reaches the end of the function without a `return`, so no counts are
returned); it returns the tuple `(None, None)` exactly in the empty-dataset
case, writing nothing. -/
theorem build_return_shape (cfg : Config) (env : BuildEnv) (out : BuildOut)
    (h : build_dataset cfg env = .ok out) :
    (out.records ≠ [] → out.ret = PyVal.none ∧
      out.writes = [(pathJoin cfg.output_dir "train.json",
                       (train_test_split out.records cfg.test_size 42).1),
                    (pathJoin cfg.output_dir "test.json",
                       (train_test_split out.records cfg.test_size 42).2)]) ∧
    (out.records = [] → out.ret = PyVal.tup PyVal.none PyVal.none ∧ out.writes = []) := by
  rcases build_ok_shape cfg env out h with ⟨hr, h1, h2⟩ | ⟨hr, h1, h2⟩
  · exact ⟨fun hne => absurd hr hne, fun _ => ⟨h1, h2⟩⟩
  · exact ⟨fun _ => ⟨h1, h2⟩, fun hnil => absurd hnil hr⟩

/-- Witness for C1 (amended), at the two-record corpus `env1`. -/
theorem build_return_shape_witness :
    out1.ret = PyVal.none ∧
    out1.writes = [(pathJoin cfg1.output_dir "train.json",
                      (train_test_split out1.records cfg1.test_size 42).1),
                   (pathJoin cfg1.output_dir "test.json",
                      (train_test_split out1.records cfg1.test_size 42).2)] :=
  (build_return_shape cfg1 env1 out1 (by decide)).1 (by decide)

/-- C2: If the per-file loop completes over every annotation file with
zero accumulated records, `build_dataset` terminates normally (no exception),
returns the null result, and performs no `_write_json` call — neither
`train.json` nor `test.json` is written. -/
theorem empty_dataset_soft_failure (cfg : Config) (env : BuildEnv)
    (h : collectRecords cfg env env.eafFiles = .ok []) :
    build_dataset cfg env =
      .ok { records := [], ret := PyVal.tup PyVal.none PyVal.none, writes := [] } := by
  simpa using build_eq_of_collect cfg env [] h

/-- Witness for C2, at the empty corpus `env0`. -/
theorem empty_dataset_soft_failure_witness :
    build_dataset cfg1 env0 =
      .ok { records := [], ret := PyVal.tup PyVal.none PyVal.none, writes := [] } :=
  empty_dataset_soft_failure cfg1 env0 (by decide)

/-- C5: A completed Audio Slicer invocation returns `None` exactly when
the decoded sample array of the written slice is empty; in that case the
just-written file is deleted and nothing remains at `output_path`, while a
non-empty decode returns a (non-null) sample sequence and leaves a wav file
at `output_path` at 16000 Hz. -/
theorem audio_slicer_validation (env : SliceEnv) :
    ((slice_and_process_audio env).1 = none ↔ env.loadData = []) ∧
    (env.loadData = [] → (slice_and_process_audio env).2 = SegFile.absent) ∧
    (env.loadData ≠ [] →
      ∃ w, (slice_and_process_audio env).1 = some w ∧
        (slice_and_process_audio env).2 = SegFile.writtenWav w 16000) := by
  unfold slice_and_process_audio
  by_cases h : env.loadData.length = 0
  · simp [h, List.length_eq_zero.mp h]
  · have hne : env.loadData ≠ [] := fun hh => h (by simp [hh])
    simp [h, hne]

/-- Witness for C5, at the concrete oracles `envS`. -/
theorem audio_slicer_validation_witness :
    ((slice_and_process_audio envS).1 = none ↔ envS.loadData = []) ∧
    (envS.loadData = [] → (slice_and_process_audio envS).2 = SegFile.absent) ∧
    (envS.loadData ≠ [] →
      ∃ w, (slice_and_process_audio envS).1 = some w ∧
        (slice_and_process_audio envS).2 = SegFile.writtenWav w 16000) :=
  audio_slicer_validation envS

/-- C9: The `split` constructor flag is never read by `build_dataset`:
two runs differing only in `split` produce identical outcomes (same
accumulated records, same partition, same writes, same return value). -/
theorem split_flag_no_influence (cfg : Config) (env : BuildEnv) :
    build_dataset { cfg with split := true } env =
      build_dataset { cfg with split := false } env :=
  build_dataset_congr _ _ env rfl rfl rfl rfl rfl

/-- C4, counterexample: The loop body does not `continue` after a failed
identity resolution: it builds the filename `None-None.wav` (Python renders
`None` into the f-string) and keeps going if that file exists. With
`wav_dir` containing a file literally named `None-None.wav`, the unmatched
file `bad.eaf` is parsed and contributes a record (with a null
`conversation_id`) — the claim said it is skipped regardless of the contents
of `wav_dir`. -/
theorem null_identity_not_always_skipped_counterexample :
    _parse_root_id_and_session "bad.eaf" = (none, none) ∧
    build_dataset cfg1 env4 =
      .ok { records := [r4], ret := PyVal.none,
            writes := [("out/train.json", []), ("out/test.json", [r4])] } := by decide

/-- C4, amended: A file whose identity resolves to null contributes
nothing — no extraction is attempted and no record is appended — *provided*
`wav_dir` does not contain a file literally named `None-None.wav`; if it
does, the file is processed despite the failed resolution. -/
theorem null_identity_skipped_without_none_wav (cfg : Config) (env : BuildEnv) (f : String)
    (hid : _parse_root_id_and_session f = (none, none))
    (hwav : env.wavExists (pathJoin cfg.wav_dir "None-None.wav") = false) :
    processFile cfg env f = .ok [] := by
  have key : ("None" ++ "-" ++ "None" ++ ".wav" : String) = "None-None.wav" := rfl
  simp [processFile, hid, pyFmt, key, hwav]

/-- Witness for C4 (amended): `bad.eaf` over a wav-less corpus. -/
theorem null_identity_skipped_without_none_wav_witness :
    processFile cfg1 env2 "bad.eaf" = .ok [] :=
  null_identity_skipped_without_none_wav cfg1 env2 "bad.eaf" (by decide) (by decide)

/-- C6: For a file with resolved identity `(rid, sess)` and an existing
recording, whatever the slicer outcome `wv a` of each span is (a sample list or
`None`), the per-file step emits exactly one record per extracted span, in
order, with `duration = end_ms - start_ms` (the requested span length),
`conversation_id = rid`, and
`path = seg_dir/{annotation-file-stem}/{start_ms}-{end_ms}.wav`. -/
theorem span_records (cfg : Config) (env : BuildEnv) (f : String) (rid sess : String)
    (anns : List (Int × Int × String)) (wv : Int × Int × String → Option Samples)
    (hid : _parse_root_id_and_session f = (some rid, some sess))
    (hwav : env.wavExists (pathJoin cfg.wav_dir (rid ++ "-" ++ sess ++ ".wav")) = true)
    (hparse : env.parseEaf (pathJoin cfg.eaf_dir f) = .ok anns)
    (hslice : ∀ a ∈ anns,
      env.slice (pathJoin cfg.wav_dir (rid ++ "-" ++ sess ++ ".wav"))
        (pathJoin (pathJoin cfg.seg_dir (splitextRoot f))
          (toString a.1 ++ "-" ++ toString a.2.1 ++ ".wav")) a.1 a.2.1 = .ok (wv a)) :
    processFile cfg env f =
      .ok (anns.map fun a =>
        { path := pathJoin (pathJoin cfg.seg_dir (splitextRoot f))
            (toString a.1 ++ "-" ++ toString a.2.1 ++ ".wav"),
          transcription := a.2.2, waveform := wv a, sampling_rate := 16000,
          duration := a.2.1 - a.1, conversation_id := some rid }) := by
  have hspans := processSpans_ok_map env (pathJoin cfg.wav_dir (rid ++ "-" ++ sess ++ ".wav"))
      (pathJoin cfg.seg_dir (splitextRoot f)) (some rid) anns wv hslice
  simp [processFile, hid, pyFmt, hwav, hparse, hspans]

/-- Witness for C6, at the two-span corpus `env1`. -/
theorem span_records_witness :
    processFile cfg1 env1 "A-1-1.eaf" =
      .ok ([(0, 1000, "hi"), (1000, 2500, "wo")].map fun a =>
        { path := pathJoin (pathJoin cfg1.seg_dir (splitextRoot "A-1-1.eaf"))
            (toString a.1 ++ "-" ++ toString a.2.1 ++ ".wav"),
          transcription := a.2.2, waveform := some [1], sampling_rate := 16000,
          duration := a.2.1 - a.1, conversation_id := some "A-1" }) :=
  span_records cfg1 env1 "A-1-1.eaf" "A-1" "1" [(0, 1000, "hi"), (1000, 2500, "wo")]
    (fun _ => some [1]) (by decide) (by decide) (by decide) (by decide)

/-- C8: No per-file catch exists: if any listed annotation file's
processing (identity-resolved or not) raises — a parse error or a
slicing/encoding error — then `build_dataset` itself terminates with an
exception, so a single bad input aborts the entire run. -/
theorem exceptions_propagate (cfg : Config) (env : BuildEnv) (f : String) (e : Err)
    (hf : f ∈ env.eafFiles) (he : processFile cfg env f = .error e) :
    ∃ e2, build_dataset cfg env = .error e2 := by
  obtain ⟨e2, h2⟩ := collect_error_of_mem cfg env f e env.eafFiles hf he
  exact ⟨e2, build_error_of_collect cfg env e2 h2⟩

/-- Witness for C8: a corpus whose single file raises a `ParseError`. -/
theorem exceptions_propagate_witness :
    ∃ e2, build_dataset cfg1 env8 = .error e2 :=
  exceptions_propagate cfg1 env8 "A-1-1.eaf" "ParseError" (by decide) (by decide)

/-- C10: Every record a completed run accumulates has
`sampling_rate = 16000` — the literal written into the dictionary — whether
or not its waveform is null. -/
theorem sampling_rate_invariant (cfg : Config) (env : BuildEnv) (out : BuildOut)
    (h : build_dataset cfg env = .ok out) :
    ∀ r ∈ out.records, r.sampling_rate = 16000 :=
  collectRecords_rate cfg env env.eafFiles out.records (build_ok_records cfg env out h)

/-- Witness for C10: a corpus producing a record whose waveform is null
still records `sampling_rate = 16000`. -/
theorem sampling_rate_invariant_witness :
    r10.sampling_rate = 16000 ∧ r10.waveform = none :=
  ⟨sampling_rate_invariant cfg1 env10 out10 (by decide) r10 (by decide), by decide⟩

/-!  ### Identity Resolver: the C3 development -/

/-- Computation of `takeWhile` and `dropWhile` on a list that starts with a block of elements
satisfying `p` followed by an element failing it. -/
theorem takeWhile_block (p : Char → Bool) (L R : List Char) (x : Char)
    (hL : ∀ c ∈ L, p c = true) (hx : p x = false) :
    (L ++ x :: R).takeWhile p = L ∧ (L ++ x :: R).dropWhile p = x :: R := by
  induction L with
  | nil => simp [List.takeWhile_cons, List.dropWhile_cons, hx]
  | cons a as ih =>
    have ha := hL a (List.mem_cons_self _ _)
    have hrest := ih fun c hc => hL c (List.mem_cons_of_mem _ hc)
    simp [List.takeWhile_cons, List.dropWhile_cons, ha, hrest]

/-- A successful scan decomposes its input as a prefix match of the
pattern (with an arbitrary suffix). -/
theorem matchGroups_sound (cs : List Char) (g : List Char) (d : Char)
    (h : matchGroups cs = some (g, d)) :
    ∃ L D c1 c2 c3 rest,
      cs = L ++ '-' :: (D ++ '-' :: d :: '.' :: c1 :: c2 :: c3 :: rest) ∧
      L ≠ [] ∧ (∀ c ∈ L, c.isAlpha = true) ∧ D ≠ [] ∧ (∀ c ∈ D, c.isDigit = true) ∧
      d.isDigit = true ∧ c1.toLower = 'e' ∧ c2.toLower = 'a' ∧ c3.toLower = 'f' ∧
      g = L ++ '-' :: D := by
  simp only [matchGroups] at h
  split at h
  next => cases h
  next hLne =>
    split at h
    next rest1 rest2 heq1 =>
      split at h
      next => cases h
      next hDne =>
        split at h
        next rest3 d2 c1 c2 c3 tail heq2 =>
          split at h
          next hcond =>
            obtain ⟨hg, hd⟩ := Prod.mk.inj (Option.some.inj h)
            subst hd
            simp only [Bool.and_eq_true, beq_iff_eq] at hcond
            obtain ⟨⟨⟨hdig, he⟩, ha⟩, hf⟩ := hcond
            refine ⟨cs.takeWhile Char.isAlpha, rest2.takeWhile Char.isDigit,
              c1, c2, c3, tail, ?_, ?_, ?_, ?_, ?_, hdig, he, ha, hf, hg.symm⟩
            · conv_lhs => rw [← List.takeWhile_append_dropWhile (p := Char.isAlpha) (l := cs)]
              rw [heq1]
              congr 2
              conv_lhs => rw [← List.takeWhile_append_dropWhile (p := Char.isDigit) (l := rest2)]
              rw [heq2]
            · exact fun hnil => hLne (by simp [hnil])
            · exact fun c hc => List.mem_takeWhile_imp hc
            · exact fun hnil => hDne (by simp [hnil])
            · exact fun c hc => List.mem_takeWhile_imp hc
          next => cases h
        next => cases h
    next rest1 hno => cases h

/-- Any prefix match of the pattern is found by the scan, with the groups it
determines (the scan is greedy, and the character classes are disjoint from
the separators, so the decomposition is unique). -/
theorem matchGroups_complete (L D : List Char) (d c1 c2 c3 : Char) (rest : List Char)
    (hL : L ≠ []) (hLa : ∀ c ∈ L, c.isAlpha = true)
    (hD : D ≠ []) (hDd : ∀ c ∈ D, c.isDigit = true)
    (hd : d.isDigit = true) (h1 : c1.toLower = 'e') (h2 : c2.toLower = 'a')
    (h3 : c3.toLower = 'f') :
    matchGroups (L ++ '-' :: (D ++ '-' :: d :: '.' :: c1 :: c2 :: c3 :: rest)) =
      some (L ++ '-' :: D, d) := by
  have hdashA : Char.isAlpha '-' = false := by decide
  have hdashD : Char.isDigit '-' = false := by decide
  obtain ⟨ht1, hd1⟩ := takeWhile_block Char.isAlpha L
    (D ++ '-' :: d :: '.' :: c1 :: c2 :: c3 :: rest) '-' hLa hdashA
  obtain ⟨ht2, hd2⟩ := takeWhile_block Char.isDigit D
    (d :: '.' :: c1 :: c2 :: c3 :: rest) '-' hDd hdashD
  simp [matchGroups, ht1, hd1, ht2, hd2, hL, hD, hd, h1, h2, h3]

/-- C3, counterexample: The source uses `re.match` with no end anchor:
`"ABC-123-4.eafX"` does not match the anchored pattern of the spec (the anchored
resolver returns nulls) yet the resolver in the code extracts the groups. The
three stated examples of the claim do hold. -/
theorem resolver_not_anchored_counterexample :
    anchoredResolve "ABC-123-4.eafX" = (none, none) ∧
    _parse_root_id_and_session "ABC-123-4.eafX" = (some "ABC-123", some "4") ∧
    _parse_root_id_and_session "ABC-123-4.eaf" = (some "ABC-123", some "4") ∧
    _parse_root_id_and_session "abc-123-4.EAF" = (some "ABC-123", some "4") ∧
    _parse_root_id_and_session "not-a-match.eaf" = (none, none) := by decide

/-- C3, amended: The resolver returns (group 1 upper-cased, group 2
verbatim) exactly when the case-insensitive pattern
`([A-Za-z]+-\d+)-(\d)\.eaf` matches a *prefix* of the filename (anchored at
the start only — `re.match` — so arbitrary trailing characters are
accepted), and the null identity `(None, None)` for every other filename. -/
theorem resolver_prefix_characterization (s : String) :
    (∀ r d, PrefixMatch s r d → _parse_root_id_and_session s = (some r, some d)) ∧
    ((¬ ∃ r d, PrefixMatch s r d) → _parse_root_id_and_session s = (none, none)) := by
  constructor
  · rintro r d ⟨L, D, dch, c1, c2, c3, rest, hs, hL, hLa, hD, hDd, hd, h1, h2, h3, hr, hsess⟩
    subst hr hsess
    unfold _parse_root_id_and_session
    rw [hs, matchGroups_complete L D dch c1 c2 c3 rest hL hLa hD hDd hd h1 h2 h3]
  · intro hne
    cases hm : matchGroups s.data with
    | none => unfold _parse_root_id_and_session; rw [hm]
    | some gd =>
      obtain ⟨g, d⟩ := gd
      exfalso
      obtain ⟨L, D, c1, c2, c3, rest, hs, hL, hLa, hD, hDd, hd, h1, h2, h3, hg⟩ :=
        matchGroups_sound s.data g d hm
      exact hne ⟨String.mk ((L ++ '-' :: D).map Char.toUpper), String.mk [d],
        L, D, d, c1, c2, c3, rest, hs, hL, hLa, hD, hDd, hd, h1, h2, h3, rfl, rfl⟩

/-- Witness for C3 (amended), at the mixed-case example of the spec. -/
theorem resolver_prefix_characterization_witness :
    _parse_root_id_and_session "abc-123-4.EAF" = (some "ABC-123", some "4") :=
  (resolver_prefix_characterization "abc-123-4.EAF").1 "ABC-123" "4"
    ⟨['a', 'b', 'c'], ['1', '2', '3'], '4', 'E', 'A', 'F', [],
      by decide, by decide, by decide, by decide, by decide, by decide,
      by decide, by decide, by decide, by decide, by decide⟩

/-!  ### Splitter arithmetic: the C7 development -/

/-- Bridging `t * m ≤ n` between ℚ and the integer cross-multiplied form. -/
theorem rat_mul_nat_le_nat (t : ℚ) (m n : Nat) :
    t * m ≤ (n : ℚ) ↔ t.num * (m : ℤ) ≤ (n : ℤ) * (t.den : ℤ) := by
  conv_lhs => rw [← Rat.num_div_den t]
  rw [div_mul_eq_mul_div, div_le_iff₀ (by exact_mod_cast t.den_pos)]
  constructor <;> intro h <;> exact_mod_cast h

/-- The rounded-up quotient `(a + b - 1) / b` is at least `a / b`. -/
theorem ceil_div_ge (a b : Nat) (hb : 0 < b) : a ≤ b * ((a + b - 1) / b) := by
  have hdm := Nat.div_add_mod (a + b - 1) b
  have hlt : (a + b - 1) % b < b := Nat.mod_lt _ hb
  omega

/-- The rounded-up quotient is the least `n` with `a ≤ b * n`. -/
theorem ceil_div_le (a b n : Nat) (hb : 0 < b) (hn : a ≤ b * n) : (a + b - 1) / b ≤ n := by
  rw [Nat.div_le_iff_le_mul_add_pred hb]
  omega

/-- The value `ceilMulNat t m` is an upper bound for `t * m`. -/
theorem le_ceilMulNat (t : ℚ) (m : Nat) : t * m ≤ (ceilMulNat t m : ℚ) := by
  rcases le_or_lt 0 t.num with hnum | hnum
  · rw [rat_mul_nat_le_nat]
    have ha : ((t.num.toNat : ℤ)) = t.num := Int.toNat_of_nonneg hnum
    have h1 : t.num.toNat * m ≤ t.den * ceilMulNat t m :=
      ceil_div_ge (t.num.toNat * m) t.den t.den_pos
    calc t.num * (m : ℤ) = ((t.num.toNat * m : ℕ) : ℤ) := by push_cast [ha]; ring
      _ ≤ ((t.den * ceilMulNat t m : ℕ) : ℤ) := by exact_mod_cast h1
      _ = (ceilMulNat t m : ℤ) * t.den := by push_cast; ring
  · have ht : t ≤ 0 := by
      by_contra hpos
      exact absurd (Rat.num_nonneg.mpr (le_of_not_le hpos)) (by omega)
    calc t * m ≤ 0 * m := mul_le_mul_of_nonneg_right ht (by positivity)
      _ = 0 := by ring
      _ ≤ (ceilMulNat t m : ℚ) := by positivity

/-- The value `ceilMulNat t m` is below any natural bound on `t * m`. -/
theorem ceilMulNat_le_of (t : ℚ) (m n : Nat) (h : t * m ≤ (n : ℚ)) : ceilMulNat t m ≤ n := by
  rcases le_or_lt 0 t.num with hnum | hnum
  · have hz := (rat_mul_nat_le_nat t m n).mp h
    have ha : ((t.num.toNat : ℤ)) = t.num := Int.toNat_of_nonneg hnum
    have hnat : t.num.toNat * m ≤ t.den * n := by
      have h2 : ((t.num.toNat * m : ℕ) : ℤ) ≤ ((t.den * n : ℕ) : ℤ) := by
        push_cast [ha]
        linarith [hz]
      exact_mod_cast h2
    exact ceil_div_le _ _ _ t.den_pos hnat
  · have h0 : t.num.toNat = 0 := by omega
    unfold ceilMulNat
    rw [h0, Nat.zero_mul, Nat.zero_add]
    rw [Nat.div_eq_of_lt (by have := t.den_pos; omega)]
    exact Nat.zero_le n

/-- The computable ceiling used by the splitter agrees with `Nat.ceil`. -/
theorem ceilMulNat_eq_ceil (t : ℚ) (m : Nat) : ceilMulNat t m = ⌈(t * m : ℚ)⌉₊ := by
  apply le_antisymm
  · exact ceilMulNat_le_of t m _ (Nat.le_ceil _)
  · exact Nat.ceil_le.mpr (le_ceilMulNat t m)

/-- Size and disjointness facts about one `train_test_split` call. -/
theorem train_test_split_spec {α : Type} (data : List α) (t : ℚ) (seed : Nat)
    (h1 : t ≤ 1) :
    (train_test_split data t seed).2.length = ⌈(t * data.length : ℚ)⌉₊ ∧
    (train_test_split data t seed).1.length + (train_test_split data t seed).2.length
      = data.length ∧
    (data.Nodup →
      (train_test_split data t seed).1.Disjoint (train_test_split data t seed).2) := by
  have hlen : (data.rotate (lcg seed % (data.length + 1))).length = data.length :=
    List.length_rotate data _
  have hle : ceilMulNat t data.length ≤ data.length := by
    apply ceilMulNat_le_of
    calc t * data.length ≤ 1 * data.length :=
          mul_le_mul_of_nonneg_right h1 (by positivity)
      _ = (data.length : ℚ) := by ring
  refine ⟨?_, ?_, ?_⟩
  · simp only [train_test_split, List.length_take, hlen]
    rw [min_eq_left hle, ceilMulNat_eq_ceil]
  · simp only [train_test_split, List.length_take, List.length_drop, hlen]
    omega
  · intro hnd
    have hnd2 : (data.rotate (lcg seed % (data.length + 1))).Nodup :=
      List.nodup_rotate.mpr hnd
    simp only [train_test_split]
    exact fun a ha hb => (List.disjoint_take_drop hnd2 (le_refl _)) hb ha

/-- C7: For a completed run with `M > 0` accumulated records and
`test_size = t ∈ (0,1)`, the persisted partition satisfies
`|test| = ⌈t·M⌉` (the rounding convention of the splitter, within 1 of `t·M`),
`|train| + |test| = M`, train and test are disjoint whenever the records are
distinct, and the partition is the value of a pure function of
`(records, test_size, seed)` — so a re-run on the same input order with the
same seed yields the identical partition. -/
theorem partition_integrity (cfg : Config) (env : BuildEnv) (out : BuildOut)
    (h : build_dataset cfg env = .ok out) (hne : out.records ≠ [])
    (h0 : 0 < cfg.test_size) (h1 : cfg.test_size < 1) :
    ∃ train test,
      out.writes = [(pathJoin cfg.output_dir "train.json", train),
                    (pathJoin cfg.output_dir "test.json", test)] ∧
      test.length = ⌈(cfg.test_size * out.records.length : ℚ)⌉₊ ∧
      (cfg.test_size * out.records.length : ℚ) ≤ (test.length : ℚ) ∧
      ((test.length : ℚ)) < cfg.test_size * out.records.length + 1 ∧
      train.length + test.length = out.records.length ∧
      (out.records.Nodup → train.Disjoint test) ∧
      train_test_split out.records cfg.test_size 42 = (train, test) := by
  rcases build_ok_shape cfg env out h with ⟨hr, _, _⟩ | ⟨hr, hret, hw⟩
  · exact absurd hr hne
  · obtain ⟨hlen, hsum, hdisj⟩ := train_test_split_spec out.records cfg.test_size 42 h1.le
    refine ⟨(train_test_split out.records cfg.test_size 42).1,
      (train_test_split out.records cfg.test_size 42).2, hw, hlen, ?_, ?_, hsum, hdisj, rfl⟩
    · rw [hlen]
      exact Nat.le_ceil _
    · rw [hlen]
      exact Nat.ceil_lt_add_one (mul_nonneg h0.le (by positivity))

/-- Witness for C7, at the two-record corpus `env1` with `test_size = 0.1`. -/
theorem partition_integrity_witness :
    ∃ train test,
      out1.writes = [(pathJoin cfg1.output_dir "train.json", train),
                    (pathJoin cfg1.output_dir "test.json", test)] ∧
      test.length = ⌈(cfg1.test_size * out1.records.length : ℚ)⌉₊ ∧
      (cfg1.test_size * out1.records.length : ℚ) ≤ (test.length : ℚ) ∧
      ((test.length : ℚ)) < cfg1.test_size * out1.records.length + 1 ∧
      train.length + test.length = out1.records.length ∧
      (out1.records.Nodup → train.Disjoint test) ∧
      train_test_split out1.records cfg1.test_size 42 = (train, test) :=
  partition_integrity cfg1 env1 out1 (by decide) (by decide) (by decide) (by decide)
